import Mathlib

/-!
Shallow embedding of the sails-rest adapter core: the request-translation
pipeline of `Resource.prototype.request` (src/unnamed/part_000) together with
its completion handler and the `RestError` type (src/lib/rest-error.js).

JavaScript values are modelled by `JVal`; JS objects are association lists in
insertion order; truthiness, property access and `lodash` helpers
(`_.extend`, `_.size`, `delete`) are modelled explicitly.  External
collaborators (the restify client, the cache engine, the collection
transformer/cast) are modelled by their interfaces, as the spec excludes them
from the core.
-/

namespace SailsRest

/-- A JavaScript value: the scalar cases plus objects (insertion-ordered
association lists) and arrays.  `jundefined` models `undefined`. -/
inductive JVal : Type where
  | jnull
  | jundefined
  | jbool (b : Bool)
  | jnum (n : Int)
  | jstr (s : String)
  | jobj (fields : List (String × JVal))
  | jarr (elems : List JVal)

/-- JS truthiness for a `JVal`: objects and arrays are always truthy, zero
numbers, empty strings, `null`, `undefined` and `false` are falsy. -/
def JVal.truthy : JVal → Bool
  | .jnull => false
  | .jundefined => false
  | .jbool b => b
  | .jnum n => n != 0
  | .jstr s => s != ""
  | .jobj _ => true
  | .jarr _ => true

/-- JS string coercion of a scalar, as used by `'/' + options.where.id`.
Objects and arrays are coerced to placeholders (their exact JS rendering is
irrelevant to every claim). -/
def JVal.toJsString : JVal → String
  | .jnull => "null"
  | .jundefined => "undefined"
  | .jbool b => if b then "true" else "false"
  | .jnum n => toString n
  | .jstr s => s
  | .jobj _ => "[object Object]"
  | .jarr _ => ""

/-- A JS object: an insertion-ordered association list (JS objects have no
duplicate keys; the operations below preserve that). -/
abbrev JObj := List (String × JVal)

/-- Property lookup on an association list (first match), the model of
`o[k]` returning `Option` instead of `undefined` for absence. -/
def jget {α : Type} : List (String × α) → String → Option α
  | [], _ => none
  | (k', v) :: rest, k => if k' == k then some v else jget rest k

/-- Property assignment `o[k] = v`: replaces an existing key in place,
otherwise appends (JS insertion-order semantics). -/
def jset {α : Type} : List (String × α) → String → α → List (String × α)
  | [], k, v => [(k, v)]
  | (k', v') :: rest, k, v =>
      if k' == k then (k, v) :: rest else (k', v') :: jset rest k v

/-- The JS `delete o[k]` operator: removes the key. -/
def jdel {α : Type} (o : List (String × α)) (k : String) : List (String × α) :=
  o.filter (fun kv => kv.1 != k)

/-- `_.extend(dst, src)`: assigns every key of `src` onto `dst` in order,
mutating `dst`; the result models the mutated `dst`. -/
def jextend (dst src : JObj) : JObj :=
  src.foldl (fun d kv => jset d kv.1 kv.2) dst

/-- Property access `v.k` on an arbitrary value, defaulting to `undefined`
for non-objects (access on `null`/`undefined` is modelled separately where a
claim depends on the thrown TypeError). -/
def jdotD (v : JVal) (k : String) : JVal :=
  match v with
  | .jobj fs => (jget fs k).getD .jundefined
  | _ => .jundefined

/-- The per-call connection configuration (the `config` object cloned at the
top of `request`).  The connection target (protocol/hostname/port) is folded
into `baseUrl`, the string `url.format` produces for it, since no claim
distinguishes the individual fields.  `hasGetPathname` records whether the
configuration supplies a `getPathname` function; when it does, it is the
source's `Resource.getPathname`. -/
structure Config where
  methods : List (String × String)
  query : JObj
  pathname : String
  resource : Option String
  action : Option String
  hasGetPathname : Bool
  baseUrl : String

/-- Caller-supplied per-call options.  `where_` is the `where` selector
(`none` models an absent/falsy `where`); `skip`/`limit`/`offset` are the
pagination hints; `query`/`pathname`/`resource` model options keys that
override the corresponding configuration keys (lines 169-175 of the source).
Option keys overriding the connection target are not exercised by any
claim and are omitted. -/
structure Options where
  where_ : Option JObj := none
  skip : Option JVal := none
  limit : Option JVal := none
  offset : Option JVal := none
  query : Option JObj := none
  pathname : Option String := none
  resource : Option String := none

/-- The options value viewed as the underlying JS object, used where the
source treats `options` as a plain object (`_.extend(options, opt)`). -/
def optionsToObj (o : Options) : JObj :=
  (match o.where_ with | some w => [("where", JVal.jobj w)] | none => []) ++
  (match o.skip with | some v => [("skip", v)] | none => []) ++
  (match o.limit with | some v => [("limit", v)] | none => []) ++
  (match o.offset with | some v => [("offset", v)] | none => []) ++
  (match o.query with | some q => [("query", JVal.jobj q)] | none => []) ++
  (match o.pathname with | some p => [("pathname", JVal.jstr p)] | none => []) ++
  (match o.resource with | some r => [("resource", JVal.jstr r)] | none => [])

/-- The restify client collaborator: the set of verb-named operations it
exposes (`_.isFunction(client[restMethod])`) and its base `url.href`. -/
structure Client where
  verbs : List String
  urlHref : String

/-- The external cache engine state: a map from URI to stored value. -/
abbrev CacheState := List (String × JVal)

/-- Lines 169-175: each configuration key present in `options` overrides the
cloned configuration. -/
def applyOverrides (cfg : Config) (o : Options) : Config :=
  { cfg with
    query := o.query.getD cfg.query
    pathname := o.pathname.getD cfg.pathname
    resource := match o.resource with | some r => some r | none => cfg.resource }

/-- The external `underscore.inflections` pluralizer, modelled by its regular
English case (no claim depends on irregular plurals). -/
def pluralize (s : String) : String :=
  if s.endsWith "s" then s else s ++ "s"

/-- Lines 168-181: option overrides applied to the cloned configuration, then
the pluralized-collection fallback for an unset `resource`. -/
def effectiveConfig (cfg0 : Config) (options : Option Options)
    (collectionName : String) : Config :=
  let cfg := match options with
    | some o => applyOverrides cfg0 o
    | none => cfg0
  if cfg.resource.isNone then
    { cfg with resource := some (pluralize collectionName) }
  else cfg

/-- `Resource.getPathname` (lines 43-45):
`config.pathname + '/' + config.resource + (config.action ? '/' + config.action : '')`. -/
def getPathname (cfg : Config) : String :=
  cfg.pathname ++ "/" ++ cfg.resource.getD "undefined" ++
    (match cfg.action with
     | some a => if a == "" then "" else "/" ++ a
     | none => "")

/-- `querystring` rendering of one query value inside `url.format`
(percent-encoding omitted; no claim depends on the encoding). -/
def queryValString : JVal → String
  | .jnull => ""
  | .jundefined => ""
  | .jbool b => if b then "true" else "false"
  | .jnum n => toString n
  | .jstr s => s
  | .jobj _ => ""
  | .jarr _ => ""

/-- The search component `url.format` derives from `config.query`. -/
def formatQuery : JObj → String
  | [] => ""
  | q => "?" ++ String.intercalate "&"
      (q.map (fun kv => kv.1 ++ "=" ++ queryValString kv.2))

/-- `url.format(config)` (line 239): base URL, pathname, then query string. -/
def formatUri (cfg : Config) : String :=
  cfg.baseUrl ++ cfg.pathname ++ formatQuery cfg.query

/-- `s.replace(pat, rep)` for strings: replaces the first occurrence. -/
def replaceFirst (s pat rep : String) : String :=
  match s.splitOn pat with
  | [] => s
  | [x] => x
  | x :: y :: rest => x ++ rep ++ String.intercalate pat (y :: rest)

/-- The errors the pipeline hands to a callback: a raw JS `Error` or the
normalized `RestError` of src/lib/rest-error.js with its metadata. -/
structure Res where
  statusCode : Option Nat

/-- The `{req, res, data}` metadata attached to a `RestError` (line 259). -/
structure ErrMeta where
  req : JVal
  res : Option Res
  data : JVal

/-- A callback error argument: a raw `Error` (line 164) or a `RestError`. -/
inductive CbErr where
  | raw (message : String)
  | rest (message : String) (meta : ErrMeta)

/-- The `RestError` constructor (src/lib/rest-error.js):
`this.message = message || "REST Error Message"`. -/
def mkRestError (message : String) (meta : ErrMeta) : CbErr :=
  .rest (if message == "" then "REST Error Message" else message) meta

/-- Whether a callback error is the normalized `RestError` kind. -/
def CbErr.isRest : CbErr → Bool
  | .rest _ _ => true
  | .raw _ => false

/-- What one invocation of `request` does before any HTTP completion:
invoke the callback with an error (line 164), throw (line 183 when
`config.getPathname` is not a function), fan out through `self.find`
(lines 190-208), answer from the cache (lines 248-249), or issue the HTTP
call (lines 278-282) with its verb, relative path, optional body and the
formatted URI the completion handler captures. -/
inductive Action where
  | cbErr (e : CbErr)
  | typeErrorThrown (msg : String)
  | fanOut (findOptions : Options)
  | cacheHit (value : JVal)
  | httpCall (verb : String) (path : String) (body : Option JObj) (uri : String)

/-- The observable outcome of one `request` invocation: the action taken,
the caller's `options` object after the call's in-place mutations (as a JS
object; `none` when `null` was passed), and the mutated configuration clone
when the call reached URI formatting. -/
structure ReqResult where
  action : Action
  finalOptions : Option JObj
  cfgOut : Option Config

def Action.isNetworkCall : Action → Bool
  | .httpCall _ _ _ _ => true
  | _ => false

def ReqResult.bodyOut : ReqResult → Option JObj
  | ⟨.httpCall _ _ b _, _, _⟩ => b
  | _ => none

def ReqResult.queryOut (r : ReqResult) : Option JObj :=
  r.cfgOut.map Config.query

def ReqResult.pathnameOut (r : ReqResult) : Option String :=
  r.cfgOut.map Config.pathname

/-- The routing decision of lines 185-233: fan out, or proceed with a
(possibly mutated) configuration, final pathname, secondary payload `opt`,
and the caller's mutated options object. -/
inductive Routed where
  | fan (findOptions : Options)
  | go (cfg : Config) (pathname : String) (opt : Option JObj)
      (finalOpts : Option JObj)

/-- Lines 213-217: copy each of `skip`, `limit`, `offset` defined in the
options into `config.query`, in that order. -/
def addPagination (q : JObj) (o : Options) : JObj :=
  let q1 := match o.skip with | some v => jset q "skip" v | none => q
  let q2 := match o.limit with | some v => jset q1 "limit" v | none => q1
  match o.offset with | some v => jset q2 "offset" v | none => q2

/-- Lines 227-233: when no secondary payload was produced and `values` is
present, `opt = values`, then `opt = _.extend(options, opt)` when `options`
is truthy — the values keys are merged into the caller's options object,
which becomes the payload. -/
def mergeValues (cfg : Config) (pathname : String) (o : Option Options)
    (values : Option JObj) : Routed :=
  match values with
  | none => .go cfg pathname none (o.map optionsToObj)
  | some vs =>
      match o with
      | none => .go cfg pathname (some vs) none
      | some oo =>
          let merged := jextend (optionsToObj oo) vs
          .go cfg pathname (some merged) (some merged)

/-- Lines 210-233 for a present `where` object `w` (already id-stripped when
the id was truthy): for GET, merge `w` into `config.query` and add the
pagination keys; otherwise `w` becomes `opt` when non-empty
(`_.size(options.where)`), or `where` is deleted from the options and the
values-merge of lines 227-233 applies. -/
def afterWhere (cfg : Config) (pathname : String) (m : String) (o : Options)
    (w : JObj) (values : Option JObj) : Routed :=
  if m == "get" then
    let q := addPagination (jextend cfg.query w) o
    mergeValues { cfg with query := q } pathname (some { o with where_ := some w }) values
  else if w.length != 0 then
    .go cfg pathname (some w) (some (optionsToObj { o with where_ := some w }))
  else
    mergeValues cfg pathname (some { o with where_ := none }) values

/-- Lines 185-233: the id short-circuit (truthy `options.where.id` appends a
path segment and deletes the id), the bulk fan-out for `update`/`destroy`
with no truthy id, and the query/body placement. -/
def route (cfg : Config) (pathname : String) (methodName m : String)
    (options : Option Options) (values : Option JObj) : Routed :=
  match options with
  | none => mergeValues cfg pathname none values
  | some o =>
      match o.where_ with
      | none => mergeValues cfg pathname (some o) values
      | some w =>
          let idv := (jget w "id").getD .jundefined
          if idv.truthy then
            let w1 := jdel w "id"
            afterWhere cfg (pathname ++ "/" ++ idv.toJsString) m
              { o with where_ := some w1 } w1 values
          else if methodName == "destroy" || methodName == "update" then
            .fan o
          else
            afterWhere cfg pathname m o w values

/-- The routing phase of `request` for a resolved verb `m`: effective
configuration, base pathname, then lines 185-233. -/
def routedFor (cfg0 : Config) (collectionName methodName m : String)
    (options : Option Options) (values : Option JObj) : Routed :=
  let cfg := effectiveConfig cfg0 options collectionName
  route cfg (getPathname cfg) methodName m options values

/-- The fully formatted request URI (line 239) of a non-fan-out call. -/
def requestUri (cfg0 : Config) (collectionName methodName m : String)
    (options : Option Options) (values : Option JObj) : Option String :=
  match routedFor cfg0 collectionName methodName m options values with
  | .go cfg1 pn _ _ => some (formatUri { cfg1 with pathname := pn })
  | .fan _ => none

/-- `Resource.prototype.request` (lines 150-284) up to the point where
control leaves the function: verb validation, configuration overrides,
pathname resolution, routing, cache read for `find`, and the HTTP call. -/
def request (client : Client) (cacheSt : Option CacheState) (cfg0 : Config)
    (collectionName methodName : String) (options : Option Options)
    (values : Option JObj) : ReqResult :=
  match jget cfg0.methods methodName with
  | none =>
      ⟨.cbErr (.raw "Invalid REST method: undefined"), options.map optionsToObj, none⟩
  | some m =>
      if client.verbs.contains m then
        let cfg := effectiveConfig cfg0 options collectionName
        if cfg.hasGetPathname then
          match routedFor cfg0 collectionName methodName m options values with
          | .fan o => ⟨.fanOut o, some (optionsToObj o), none⟩
          | .go cfg1 pn opt fo =>
              let cfg2 := { cfg1 with pathname := pn }
              let uri := formatUri cfg2
              let r : JVal :=
                if methodName == "find" then
                  match cacheSt with
                  | some cs => (jget cs uri).getD .jundefined
                  | none => .jundefined
                else .jundefined
              if r.truthy then ⟨.cacheHit r, fo, some cfg2⟩
              else
                ⟨.httpCall m (replaceFirst uri client.urlHref "/") opt uri,
                 fo, some cfg2⟩
        else
          ⟨.typeErrorThrown "config.getPathname is not a function",
           options.map optionsToObj, none⟩
      else
        ⟨.cbErr (.raw ("Invalid REST method: " ++ m)), options.map optionsToObj, none⟩

/-- `Resource.prototype.find` (lines 293-295). -/
def find (client : Client) (cacheSt : Option CacheState) (cfg0 : Config)
    (collection : String) (options : Option Options) : ReqResult :=
  request client cacheSt cfg0 collection "find" options none

/-- `Resource.prototype.create` (lines 305-307): `options` is `null`. -/
def create (client : Client) (cacheSt : Option CacheState) (cfg0 : Config)
    (collection : String) (values : Option JObj) : ReqResult :=
  request client cacheSt cfg0 collection "create" none values

/-- `Resource.prototype.update` (lines 317-319). -/
def update (client : Client) (cacheSt : Option CacheState) (cfg0 : Config)
    (collection : String) (options : Option Options) (values : Option JObj) :
    ReqResult :=
  request client cacheSt cfg0 collection "update" options values

/-- `Resource.prototype.destroy` (lines 328-330): no `values`. -/
def destroy (client : Client) (cacheSt : Option CacheState) (cfg0 : Config)
    (collection : String) (options : Option Options) : ReqResult :=
  request client cacheSt cfg0 collection "destroy" options none

/-- The transport error argument of a completion callback. -/
structure JsErrObj where
  message : String

/-- What the fan-out find callback (lines 192-205) does: propagate the
enumeration error, or issue one sub-request per record, pairing each with
whether the ORIGINAL callback (true) or `_.noop` (false) is attached. -/
inductive FanOutcome where
  | propagateError (e : JsErrObj)
  | subRequests (subs : List (Bool × Options))

/-- Lines 192-204: the callback of the enumerating `find`.  Sub-request `i`
gets the original callback exactly when `i + 1 === results.length`, and a
selector containing only that record's id. -/
def fanContinuation (err : Option JsErrObj) (results : List JVal) : FanOutcome :=
  match err with
  | some e => .propagateError e
  | none =>
      .subRequests (results.enum.map (fun p =>
        (p.1 + 1 == results.length,
         { where_ := some [("id", jdotD p.2 "id")] })))

/-- How many fan-out sub-requests carry the original callback. -/
def fanAttachCount : FanOutcome → Nat
  | .propagateError _ => 0
  | .subRequests subs => subs.countP (fun s => s.1)

/-- The test `/^(4|5)\d+$/.test(s)` of line 256: first character `4` or `5`
followed by one or more digits. -/
def statusErrorTest (s : String) : Bool :=
  match s.data with
  | [] => false
  | c :: rest => (c == '4' || c == '5') && !rest.isEmpty && rest.all Char.isDigit

/-- Property access `v.k` as full JS: throws a TypeError on `null` and
`undefined`, yields `undefined` on other non-objects. -/
def jsPropGet (v : JVal) (k : String) : Except String JVal :=
  match v with
  | .jnull => .error ("TypeError: Cannot read property " ++ k ++ " of null")
  | .jundefined => .error ("TypeError: Cannot read property " ++ k ++ " of undefined")
  | .jobj fs => .ok ((jget fs k).getD .jundefined)
  | _ => .ok .jundefined

/-- `Resource.formatResult` (lines 55-69) with the external collection
transformer and cast, and the optional hooks, absent/identity: the external
unserialize/cast collaborators are excluded from the core by the spec, and
no claim involves the hooks. -/
def formatResult (result : JVal) : JVal := result

/-- `Resource.getResultsAsCollection` (lines 103-108):
`data.objects || data.results || data`, wrapped in an array when not one,
then per-record formatting. -/
def getResultsAsCollection (data : JVal) : Except String (List JVal) := do
  let o1 ← jsPropGet data "objects"
  let d ←
    if o1.truthy then pure o1
    else do
      let o2 ← jsPropGet data "results"
      pure (if o2.truthy then o2 else data)
  match d with
  | .jarr xs => pure (xs.map formatResult)
  | other => pure [formatResult other]

/-- One observable effect of the completion handler, in order: cache writes
and the callback invocation. -/
inductive HandlerStep where
  | cacheSet (key : String) (value : JVal)
  | cacheDel (key : String)
  | cbError (e : CbErr)
  | cbSuccess (value : JVal)

/-- Lines 262-273: the success path of the completion handler — normalize,
cache write for `find` or cache invalidation otherwise, then
`callback(null, r)`. -/
def handlerSuccess (methodName uri : String) (cacheConfigured : Bool)
    (data : JVal) : Except String (List HandlerStep) := do
  if methodName == "find" then
    let rs ← getResultsAsCollection data
    pure ((if cacheConfigured then [.cacheSet uri (.jarr rs)] else []) ++
      [.cbSuccess (.jarr rs)])
  else
    pure ((if cacheConfigured then [.cacheDel uri] else []) ++
      [.cbSuccess (formatResult data)])

/-- The completion handler `cb` of lines 253-275, with the `uri`,
`methodName` and cache configuration it closes over as parameters.
`.error` models a thrown exception: line 256 throws when a present response
carries no `statusCode` (`res.statusCode.toString()`), and the find success
path throws when `data` is `null`/`undefined` (property access). -/
def completionHandler (methodName uri : String) (cacheConfigured : Bool)
    (err : Option JsErrObj) (req : JVal) (res : Option Res) (data : JVal) :
    Except String (List HandlerStep) := do
  let responseErrorCode ←
    match res with
    | none => pure false
    | some rr =>
        match rr.statusCode with
        | none => Except.error "TypeError: Cannot read property toString of undefined"
        | some sc => pure (statusErrorTest (toString sc))
  match err with
  | some e =>
      if res.isNone || responseErrorCode then
        pure [.cbError (mkRestError e.message ⟨req, res, data⟩)]
      else handlerSuccess methodName uri cacheConfigured data
  | none => handlerSuccess methodName uri cacheConfigured data

/-- Whether the handler surfaced a failure to the callback. -/
def handlerFails : Except String (List HandlerStep) → Bool
  | .ok steps => steps.any (fun s => match s with | .cbError _ => true | _ => false)
  | .error _ => false

/-- Whether the handler ran to completion without throwing. -/
def handlerOk : Except String (List HandlerStep) → Bool
  | .ok _ => true
  | .error _ => false

/-- Every present response carries a status code (restify always sets one;
line 256 throws otherwise). -/
def resStatusOk : Option Res → Bool
  | none => true
  | some rr => rr.statusCode.isSome

/-- Every present response carries a three-digit status code. -/
def resStatusBounded : Option Res → Bool
  | none => true
  | some rr =>
      match rr.statusCode with
      | none => false
      | some sc => decide (100 ≤ sc) && decide (sc < 1000)

/-- The failure classification of line 258, as the code computes it. -/
def tookErrorPath (err : Option JsErrObj) (res : Option Res) : Bool :=
  err.isSome &&
    (res.isNone ||
      (match res with
       | some ⟨some sc⟩ => statusErrorTest (toString sc)
       | _ => false))

/-- Modelled from the spec's words (section 4.5): the response status code
falls in the 4xx/5xx range.  Used to compare the code's regex test with the
spec's classification. -/
def specFails4xx5xx : Option Res → Bool
  | some ⟨some sc⟩ => decide (400 ≤ sc) && decide (sc ≤ 599)
  | _ => false

/-- Whether the success path of the handler may access properties of `data`
without throwing. -/
def jsAccessible : JVal → Bool
  | .jnull => false
  | .jundefined => false
  | _ => true

/-! ### Lemmas about the object operations -/

theorem jget_jset_ne {α : Type} (l : List (String × α)) (k k' : String) (v : α)
    (h : k' ≠ k) : jget (jset l k' v) k = jget l k := by
  induction l with
  | nil => simp [jget, jset, h]
  | cons hd tl ih =>
      by_cases h1 : hd.1 = k'
      · simp [jset, h1, jget, h]
      · simp only [jset]
        rw [if_neg (by simpa using h1)]
        by_cases h2 : hd.1 = k
        · simp [jget, h2]
        · simp only [jget]
          rw [if_neg (by simpa using h2), if_neg (by simpa using h2), ih]

theorem jget_jset_self {α : Type} (l : List (String × α)) (k : String) (v : α) :
    jget (jset l k v) k = some v := by
  induction l with
  | nil => simp [jget, jset]
  | cons hd tl ih =>
      by_cases h1 : hd.1 = k
      · simp [jset, h1, jget]
      · simp only [jset]
        rw [if_neg (by simpa using h1)]
        simp only [jget]
        rw [if_neg (by simpa using h1), ih]

theorem jget_jdel_self {α : Type} (l : List (String × α)) (k : String) :
    jget (jdel l k) k = none := by
  induction l with
  | nil => simp [jget, jdel]
  | cons hd tl ih =>
      by_cases h1 : hd.1 = k
      · simpa [jdel, h1] using ih
      · have hb : (hd.1 != k) = true := by simpa using h1
        simp only [jdel, List.filter_cons, hb, if_true]
        simp only [jget]
        rw [if_neg (by simpa using h1)]
        simpa [jdel] using ih

theorem jget_jextend_none (dst src : JObj) (k : String)
    (h : jget src k = none) : jget (jextend dst src) k = jget dst k := by
  induction src generalizing dst with
  | nil => simp [jextend]
  | cons hd tl ih =>
      simp only [jextend, List.foldl] at *
      have h1 : hd.1 ≠ k := by
        intro he
        simp [jget, he] at h
      have h2 : jget tl k = none := by
        simp only [jget] at h
        rw [if_neg (by simpa using h1)] at h
        exact h
      rw [ih (jset dst hd.1 hd.2) h2, jget_jset_ne _ _ _ _ h1]

theorem jget_optionsToObj_where (o : Options) :
    jget (optionsToObj o) "where" = o.where_.map JVal.jobj := by
  rcases o with ⟨w, s, l, f, q, p, r⟩
  cases w <;> cases s <;> cases l <;> cases f <;> cases q <;> cases p <;> cases r <;>
    simp [optionsToObj, jget]

theorem jget_optionsToObj_id (o : Options) :
    jget (optionsToObj o) "id" = none := by
  rcases o with ⟨w, s, l, f, q, p, r⟩
  cases w <;> cases s <;> cases l <;> cases f <;> cases q <;> cases p <;> cases r <;>
    simp [optionsToObj, jget]

theorem addPagination_other (q : JObj) (o : Options) (k : String)
    (h1 : k ≠ "skip") (h2 : k ≠ "limit") (h3 : k ≠ "offset") :
    jget (addPagination q o) k = jget q k := by
  unfold addPagination
  cases o.skip <;> cases o.limit <;> cases o.offset <;>
    simp [jget_jset_ne _ _ _ _ (Ne.symm h1), jget_jset_ne _ _ _ _ (Ne.symm h2),
      jget_jset_ne _ _ _ _ (Ne.symm h3)]

theorem addPagination_skip (q : JObj) (o : Options) (v : JVal)
    (h : o.skip = some v) : jget (addPagination q o) "skip" = some v := by
  unfold addPagination
  rw [h]
  cases o.limit <;> cases o.offset <;>
    simp [jget_jset_self, jget_jset_ne _ _ _ _ (by decide : ("limit" : String) ≠ "skip"),
      jget_jset_ne _ _ _ _ (by decide : ("offset" : String) ≠ "skip")]

theorem addPagination_limit (q : JObj) (o : Options) (v : JVal)
    (h : o.limit = some v) : jget (addPagination q o) "limit" = some v := by
  unfold addPagination
  rw [h]
  cases o.skip <;> cases o.offset <;>
    simp [jget_jset_self, jget_jset_ne _ _ _ _ (by decide : ("offset" : String) ≠ "limit")]

theorem addPagination_offset (q : JObj) (o : Options) (v : JVal)
    (h : o.offset = some v) : jget (addPagination q o) "offset" = some v := by
  unfold addPagination
  rw [h]
  cases o.skip <;> cases o.limit <;> simp [jget_jset_self]

theorem countP_range_last (n : Nat) :
    (List.range n).countP (fun i => i + 1 == n) = if n = 0 then 0 else 1 := by
  cases n with
  | zero => simp
  | succ m =>
      have h0 : (List.range m).countP (fun i => i + 1 == m + 1) = 0 := by
        rw [List.countP_eq_zero]
        intro a ha
        simp only [List.mem_range] at ha
        simp only [beq_iff_eq, ne_eq]
        omega
      have h1 : List.countP (fun i => i + 1 == m + 1) [m] = 1 := by
        simp [List.countP_cons]
      rw [List.range_succ, List.countP_append, h0, h1]
      simp

theorem fanAttach_subs (results : List JVal) (h : results ≠ []) :
    fanAttachCount (fanContinuation none results) = 1 := by
  simp only [fanContinuation, fanAttachCount]
  rw [List.countP_map]
  have key : results.enum.countP (fun p => p.1 + 1 == results.length) = 1 := by
    have hm : results.enum.countP (fun p => p.1 + 1 == results.length)
        = (results.enum.map Prod.fst).countP (fun i => i + 1 == results.length) := by
      rw [List.countP_map]
      rfl
    rw [hm, List.enum_map_fst, countP_range_last]
    simp [List.length_eq_zero, h]
  exact key

-- For a three-digit status code, the regex test of line 256 agrees with
-- membership in the 4xx/5xx range.
set_option maxRecDepth 10000 in
set_option maxHeartbeats 2000000 in
theorem statusTest_bounded : ∀ n : Nat, n < 1000 → 100 ≤ n →
    statusErrorTest (toString n) = (decide (400 ≤ n) && decide (n ≤ 599)) := by
  decide

/-! ### Pipeline-level helper lemmas -/

theorem effectiveConfig_hasGetPathname (cfg0 : Config) (options : Option Options)
    (coll : String) :
    (effectiveConfig cfg0 options coll).hasGetPathname = cfg0.hasGetPathname := by
  cases options <;> simp only [effectiveConfig, applyOverrides] <;> split <;> rfl

theorem effectiveConfig_query_none (cfg0 : Config) (coll : String) (o : Options)
    (h : o.query = none) :
    (effectiveConfig cfg0 (some o) coll).query = cfg0.query := by
  simp only [effectiveConfig, applyOverrides, h, Option.getD]
  split <;> rfl

/-- A non-find `request` that routed to `.go` issues exactly the HTTP call
with the routed verb, payload and URI (the cache read applies to `find`
only, lines 244-246). -/
theorem request_go_write (client : Client) (cacheSt : Option CacheState)
    (cfg0 : Config) (coll mN m : String) (options : Option Options)
    (values : Option JObj) (cfg1 : Config) (pn : String) (opt fo : Option JObj)
    (h1 : jget cfg0.methods mN = some m)
    (h2 : client.verbs.contains m = true)
    (h3 : cfg0.hasGetPathname = true)
    (h4 : mN ≠ "find")
    (hr : routedFor cfg0 coll mN m options values = .go cfg1 pn opt fo) :
    request client cacheSt cfg0 coll mN options values =
      ⟨.httpCall m (replaceFirst (formatUri { cfg1 with pathname := pn }) client.urlHref "/")
        opt (formatUri { cfg1 with pathname := pn }), fo,
       some { cfg1 with pathname := pn }⟩ := by
  have h3e := (effectiveConfig_hasGetPathname cfg0 options coll).trans h3
  have hfind : (mN == "find") = false := by simpa using h4
  simp only [request, h1, h2, if_true, h3e, hr, hfind, if_false, Bool.false_eq_true,
    JVal.truthy]

/-- Any `request` that routed to `.go` reports the routed configuration and
the mutated options object, whether or not the cache answered. -/
theorem request_components_of_go (client : Client) (cacheSt : Option CacheState)
    (cfg0 : Config) (coll mN m : String) (options : Option Options)
    (values : Option JObj) (cfg1 : Config) (pn : String) (opt fo : Option JObj)
    (h1 : jget cfg0.methods mN = some m)
    (h2 : client.verbs.contains m = true)
    (h3 : cfg0.hasGetPathname = true)
    (hr : routedFor cfg0 coll mN m options values = .go cfg1 pn opt fo) :
    (request client cacheSt cfg0 coll mN options values).cfgOut =
      some { cfg1 with pathname := pn }
    ∧ (request client cacheSt cfg0 coll mN options values).finalOptions = fo := by
  have h3e := (effectiveConfig_hasGetPathname cfg0 options coll).trans h3
  simp only [request, h1, h2, if_true, h3e, hr]
  refine ⟨?_, ?_⟩ <;> (split <;> (try split) <;> rfl)

/-- A concrete adapter configuration used by the witnesses and
counterexamples below. -/
def cfgW : Config :=
  { methods := [("find", "get"), ("create", "post"), ("update", "put"), ("destroy", "del")],
    query := [], pathname := "/api", resource := some "widgets", action := none,
    hasGetPathname := true, baseUrl := "http://h" }

/-- A concrete restify client exposing the four verb operations. -/
def clientW : Client := { verbs := ["get", "post", "put", "del"], urlHref := "http://h/" }

/-- A configuration whose `find` verb is not a client operation. -/
def cfgBadVerb : Config := { cfgW with methods := [("find", "gett")] }

/-! ### Completion-handler helper lemmas -/

theorem handlerSuccess_nonfind (mN uri : String) (cc : Bool) (data : JVal)
    (h : (mN == "find") = false) :
    handlerSuccess mN uri cc data =
      .ok ((if cc then [.cacheDel uri] else []) ++ [.cbSuccess (formatResult data)]) := by
  simp only [handlerSuccess, h, Bool.false_eq_true, if_false]
  rfl

theorem getResultsAsCollection_ok (data : JVal) (h : jsAccessible data = true) :
    ∃ rs, getResultsAsCollection data = Except.ok rs := by
  cases data with
  | jnull => simp [jsAccessible] at h
  | jundefined => simp [jsAccessible] at h
  | jobj fs =>
      by_cases h1 : ((jget fs "objects").getD JVal.jundefined).truthy = true
      · cases hv : (jget fs "objects").getD JVal.jundefined <;>
          simp_all [getResultsAsCollection, jsPropGet, bind, Except.bind, pure,
            Except.pure, JVal.truthy]
      · by_cases h2 : ((jget fs "results").getD JVal.jundefined).truthy = true
        · cases hv : (jget fs "results").getD JVal.jundefined <;>
            simp_all [getResultsAsCollection, jsPropGet, bind, Except.bind, pure,
              Except.pure, JVal.truthy]
        · simp [getResultsAsCollection, jsPropGet, h1, h2, bind, Except.bind, pure,
            Except.pure]
  | jarr xs => exact ⟨_, rfl⟩
  | jbool b => exact ⟨_, rfl⟩
  | jnum n => exact ⟨_, rfl⟩
  | jstr s => exact ⟨_, rfl⟩

theorem handlerFails_handlerSuccess (mN uri : String) (cc : Bool) (data : JVal) :
    handlerFails (handlerSuccess mN uri cc data) = false := by
  unfold handlerSuccess
  by_cases hf : (mN == "find") = true
  · simp only [hf, if_true]
    cases hg : getResultsAsCollection data with
    | error e => simp [bind, Except.bind, hg, handlerFails]
    | ok rs =>
        simp [bind, Except.bind, hg, handlerFails]
        cases cc <;> simp [pure, Except.pure, handlerFails]
  · have hf2 : (mN == "find") = false := by simpa using hf
    simp only [hf2, Bool.false_eq_true, if_false]
    cases cc <;> simp [pure, Except.pure, handlerFails]

theorem handlerSuccess_ok (mN uri : String) (cc : Bool) (data : JVal)
    (h : mN ≠ "find" ∨ jsAccessible data = true) :
    handlerOk (handlerSuccess mN uri cc data) = true := by
  unfold handlerSuccess
  by_cases hf : (mN == "find") = true
  · have hacc : jsAccessible data = true := by
      rcases h with h | h
      · exact absurd (by simpa using hf) h
      · exact h
    obtain ⟨rs, hg⟩ := getResultsAsCollection_ok data hacc
    simp [hf, bind, Except.bind, hg, pure, Except.pure, handlerOk]
  · have hf2 : (mN == "find") = false := by simpa using hf
    simp [hf2, bind, Except.bind, pure, Except.pure, handlerOk]

/-! ### Claims -/

/-- Claim C2, counterexample: with the `find` verb configured as the invalid
string "gett", `request` invokes the callback with a RAW `Error` (line 164 is
`new Error(...)`, not `new RestError(...)`), so the error surfaced is not the
single normalized `RestError` kind the claim asserts. -/
theorem c2_normalized_error_cex :
    (find clientW none cfgBadVerb "widgets" none).action =
      .cbErr (.raw "Invalid REST method: gett")
    ∧ (match (find clientW none cfgBadVerb "widgets" none).action with
       | .cbErr e => e.isRest
       | _ => true) = false := by
  exact ⟨rfl, rfl⟩

/-- Claim C2 (amended): for every call whose resolved verb is not a valid
client operation, the callback is invoked exactly once with a raw `Error`
(not the normalized `RestError`) whose message is
"Invalid REST method: " followed by the resolved verb (`undefined` when the
method map has no entry), and no network call is issued. -/
theorem c2_invalid_method_raw_error (client : Client) (cacheSt : Option CacheState)
    (cfg0 : Config) (coll mN : String) (options : Option Options) (values : Option JObj)
    (h : ∀ m, jget cfg0.methods mN = some m → client.verbs.contains m = false) :
    (request client cacheSt cfg0 coll mN options values).action =
      .cbErr (.raw ("Invalid REST method: " ++ (jget cfg0.methods mN).getD "undefined"))
    ∧ (request client cacheSt cfg0 coll mN options values).action.isNetworkCall = false := by
  cases hm : jget cfg0.methods mN with
  | none =>
      refine ⟨?_, ?_⟩ <;> simp [request, hm, Action.isNetworkCall]
  | some m =>
      have hc : ¬ (m ∈ client.verbs) := by simpa using h m hm
      refine ⟨?_, ?_⟩ <;> simp [request, hm, hc, Action.isNetworkCall]

/-- Claim C2, witness: the amended theorem applied at the concrete
invalid-verb configuration. -/
theorem c2_invalid_method_raw_error_witness :
    (request clientW none cfgBadVerb "widgets" "find" none none).action =
      .cbErr (.raw ("Invalid REST method: " ++ (jget cfgBadVerb.methods "find").getD "undefined"))
    ∧ (request clientW none cfgBadVerb "widgets" "find" none none).action.isNetworkCall = false := by
  exact c2_invalid_method_raw_error clientW none cfgBadVerb "widgets" "find" none none
    (fun m hm => by
      have : m = "gett" := by
        have := hm
        simp [cfgBadVerb, cfgW, jget] at this
        exact this.symm
      subst this
      rfl)

/-- Claim C7: a `find` whose formatted URI has a cached entry answers the
callback with the cached array exactly as stored and issues no HTTP call
(lines 243-249). -/
theorem c7_cache_hit (client : Client) (cs : CacheState) (cfg0 : Config)
    (coll : String) (options : Option Options) (m u : String) (xs : List JVal)
    (h1 : jget cfg0.methods "find" = some m)
    (h2 : client.verbs.contains m = true)
    (h3 : cfg0.hasGetPathname = true)
    (h4 : requestUri cfg0 coll "find" m options none = some u)
    (h5 : jget cs u = some (.jarr xs)) :
    (find client (some cs) cfg0 coll options).action = .cacheHit (.jarr xs)
    ∧ (find client (some cs) cfg0 coll options).action.isNetworkCall = false := by
  have h3e := (effectiveConfig_hasGetPathname cfg0 options coll).trans h3
  cases hr : routedFor cfg0 coll "find" m options none with
  | fan o => simp [requestUri, hr] at h4
  | go cfg1 pn opt fo =>
      have hu : formatUri { cfg1 with pathname := pn } = u := by
        simpa [requestUri, hr] using h4
      have h2m : m ∈ client.verbs := by simpa using h2
      refine ⟨?_, ?_⟩ <;>
        simp [find, request, h1, h2m, h3e, hr, hu, h5, Action.isNetworkCall, JVal.truthy]

/-- Claim C7, witness: a concrete cached entry for the URI the call formats
is returned without a network call. -/
theorem c7_cache_hit_witness :
    (find clientW (some [("http://h/api/widgets", .jarr [.jobj [("id", .jnum 1)]])])
        cfgW "widgets" none).action = .cacheHit (.jarr [.jobj [("id", .jnum 1)]])
    ∧ (find clientW (some [("http://h/api/widgets", .jarr [.jobj [("id", .jnum 1)]])])
        cfgW "widgets" none).action.isNetworkCall = false := by
  exact c7_cache_hit clientW [("http://h/api/widgets", .jarr [.jobj [("id", .jnum 1)]])]
    cfgW "widgets" none "get" "http://h/api/widgets" [.jobj [("id", .jnum 1)]]
    rfl rfl rfl rfl rfl

/-- Claim C5, counterexample: `request` throws a TypeError when the
configuration supplies no `getPathname` function (line 183 calls
`config.getPathname(...)` unconditionally), and the completion handler
throws when a present response lacks a `statusCode` (line 256 evaluates
`res.statusCode.toString()`) and when a `find` success response carries
`null` data (property access on `null` at line 104). -/
theorem c5_throws_cex :
    (find clientW none { cfgW with hasGetPathname := false } "widgets" none).action =
      .typeErrorThrown "config.getPathname is not a function"
    ∧ handlerOk (completionHandler "find" "u" false (some ⟨"boom"⟩) .jnull
        (some ⟨none⟩) .jnull) = false
    ∧ handlerOk (completionHandler "find" "u" false none .jnull
        (some ⟨some 200⟩) .jnull) = false := by
  exact ⟨rfl, rfl, rfl⟩

/-- Claim C5 (amended): no failure is thrown provided the configuration
supplies a `getPathname` function, every present response carries a
`statusCode`, and the success path of a `find` receives data that supports
property access: under those conditions `request` never reaches the throwing
state and the completion handler runs to completion, every failure being
delivered through the callback. -/
theorem c5_no_throw (client : Client) (cacheSt : Option CacheState)
    (cfg0 : Config) (coll mN : String) (options : Option Options)
    (values : Option JObj) (msg mN2 uri : String) (cc : Bool)
    (err : Option JsErrObj) (req : JVal) (res : Option Res) (data : JVal)
    (h1 : cfg0.hasGetPathname = true)
    (h2 : resStatusOk res = true)
    (h3 : mN2 ≠ "find" ∨ tookErrorPath err res = true ∨ jsAccessible data = true) :
    (request client cacheSt cfg0 coll mN options values).action ≠ .typeErrorThrown msg
    ∧ handlerOk (completionHandler mN2 uri cc err req res data) = true := by
  have h1e := (effectiveConfig_hasGetPathname cfg0 options coll).trans h1
  constructor
  · cases hm : jget cfg0.methods mN with
    | none => simp [request, hm]
    | some m =>
        by_cases hv : m ∈ client.verbs
        · cases hr : routedFor cfg0 coll mN m options values with
          | fan o => simp [request, hm, hv, h1e, hr]
          | go cfg1 pn opt fo =>
              simp only [request, hm, h1e, hr]
              (repeat' split) <;> simp_all
        · simp [request, hm, hv]
  · cases res with
    | none =>
        cases err with
        | none =>
            have hok : handlerOk (handlerSuccess mN2 uri cc data) = true := by
              apply handlerSuccess_ok
              rcases h3 with h | h | h
              · exact Or.inl h
              · simp [tookErrorPath] at h
              · exact Or.inr h
            simpa [completionHandler, bind, Except.bind] using hok
        | some e =>
            simp [completionHandler, bind, Except.bind, pure, Except.pure, handlerOk]
    | some rr =>
        obtain ⟨rsc⟩ := rr
        cases rsc with
        | none => simp [resStatusOk] at h2
        | some sc =>
            cases err with
            | none =>
                have hok : handlerOk (handlerSuccess mN2 uri cc data) = true := by
                  apply handlerSuccess_ok
                  rcases h3 with h | h | h
                  · exact Or.inl h
                  · simp [tookErrorPath] at h
                  · exact Or.inr h
                simpa [completionHandler, bind, Except.bind] using hok
            | some e =>
                cases hst : statusErrorTest (toString sc) with
                | true =>
                    simp [completionHandler, bind, Except.bind, pure, Except.pure,
                      hst, handlerOk]
                | false =>
                    have hok : handlerOk (handlerSuccess mN2 uri cc data) = true := by
                      apply handlerSuccess_ok
                      rcases h3 with h | h | h
                      · exact Or.inl h
                      · simp [tookErrorPath, hst] at h
                      · exact Or.inr h
                    simpa [completionHandler, bind, Except.bind, hst] using hok

/-- Claim C5, witness: the amended theorem applied at a concrete update call
and a concrete successful completion. -/
theorem c5_no_throw_witness :
    (request clientW none cfgW "widgets" "update"
      (some { where_ := some [("id", .jnum 7)] }) (some [("price", .jnum 5)])).action ≠
        .typeErrorThrown "config.getPathname is not a function"
    ∧ handlerOk (completionHandler "update" "http://h/api/widgets/7" true none .jnull
        (some ⟨some 200⟩) (.jobj [("id", .jnum 7)])) = true := by
  exact c5_no_throw clientW none cfgW "widgets" "update"
    (some { where_ := some [("id", .jnum 7)] }) (some [("price", .jnum 5)])
    "config.getPathname is not a function" "update" "http://h/api/widgets/7" true
    none .jnull (some ⟨some 200⟩) (.jobj [("id", .jnum 7)]) rfl rfl
    (Or.inl (by decide))

/-- Claim C6: the completion handler classifies a response as failed exactly
when a transport error is present AND (no response exists OR the status code
is 4xx/5xx), and a failure is delivered as the RestError built from the
transport error message and the `{req, res, data}` metadata; in particular a
transport error with a 2xx/3xx status is not a failure.  Stated for
three-digit status codes, where the code regex of line 256 coincides with
the 4xx/5xx range. -/
theorem c6_error_classification (mN uri : String) (cc : Bool)
    (err : Option JsErrObj) (req data : JVal) (res : Option Res)
    (hb : resStatusBounded res = true) :
    (handlerFails (completionHandler mN uri cc err req res data) =
      (err.isSome && (res.isNone || specFails4xx5xx res)))
    ∧ (∀ e, err = some e →
        (err.isSome && (res.isNone || specFails4xx5xx res)) = true →
        completionHandler mN uri cc err req res data =
          .ok [.cbError (mkRestError e.message ⟨req, res, data⟩)]) := by
  cases res with
  | none =>
      cases err with
      | none =>
          refine ⟨?_, ?_⟩
          · simp [completionHandler, bind, Except.bind, pure, Except.pure,
              handlerFails_handlerSuccess]
          · intro e he
            exact absurd he (by simp)
      | some e =>
          refine ⟨?_, ?_⟩
          · simp [completionHandler, bind, Except.bind, pure, Except.pure,
              handlerFails, specFails4xx5xx]
          · intro e2 he2 _
            cases he2
            simp [completionHandler, bind, Except.bind, pure, Except.pure]
  | some rr =>
      obtain ⟨rsc⟩ := rr
      cases rsc with
      | none => simp [resStatusBounded] at hb
      | some sc =>
          have hub : 100 ≤ sc ∧ sc < 1000 := by
            simpa [resStatusBounded] using hb
          have hst : statusErrorTest (toString sc) =
              (decide (400 ≤ sc) && decide (sc ≤ 599)) :=
            statusTest_bounded sc hub.2 hub.1
          have hsp : specFails4xx5xx (some ⟨some sc⟩) =
              (decide (400 ≤ sc) && decide (sc ≤ 599)) := rfl
          cases err with
          | none =>
              refine ⟨?_, ?_⟩
              · simp [completionHandler, bind, Except.bind, pure, Except.pure,
                  handlerFails_handlerSuccess]
              · intro e he
                exact absurd he (by simp)
          | some e =>
              cases hc : (decide (400 ≤ sc) && decide (sc ≤ 599)) with
              | true =>
                  refine ⟨?_, ?_⟩
                  · simp [completionHandler, bind, Except.bind, pure, Except.pure,
                      hst, hc, handlerFails, hsp]
                  · intro e2 he2 _
                    cases he2
                    simp [completionHandler, bind, Except.bind, pure, Except.pure,
                      hst, hc]
              | false =>
                  refine ⟨?_, ?_⟩
                  · simp [completionHandler, bind, Except.bind, pure, Except.pure,
                      hst, hc, handlerFails_handlerSuccess, hsp]
                  · intro e2 he2 habs
                    rw [hsp, hc] at habs
                    simp at habs

/-- Claim C6, witness: a transport error with a 204 response is not a
failure. -/
theorem c6_error_classification_witness :
    (handlerFails (completionHandler "find" "u" false (some ⟨"socket hang up"⟩)
        .jnull (some ⟨some 204⟩) (.jobj [])) =
      ((some (JsErrObj.mk "socket hang up")).isSome &&
        ((some (Res.mk (some 204))).isNone || specFails4xx5xx (some ⟨some 204⟩))))
    ∧ (∀ e, (some (JsErrObj.mk "socket hang up")) = some e →
        ((some (JsErrObj.mk "socket hang up")).isSome &&
          ((some (Res.mk (some 204))).isNone || specFails4xx5xx (some ⟨some 204⟩))) = true →
        completionHandler "find" "u" false (some ⟨"socket hang up"⟩) .jnull
          (some ⟨some 204⟩) (.jobj []) =
          .ok [.cbError (mkRestError e.message ⟨.jnull, some ⟨some 204⟩, .jobj []⟩)]) := by
  exact c6_error_classification "find" "u" false (some ⟨"socket hang up"⟩) .jnull
    (.jobj []) (some ⟨some 204⟩) rfl

/-- Claim C8: every create/update/destroy completion that is classified
successful with a cache configured deletes the cache entry for the call's
URI before the callback fires (lines 267-273: `cache.engine.del(uri)`
precedes `callback(null, r)`). -/
theorem c8_cache_invalidation (mN uri : String) (err : Option JsErrObj)
    (req : JVal) (res : Option Res) (data : JVal)
    (h1 : mN = "create" ∨ mN = "update" ∨ mN = "destroy")
    (h2 : resStatusOk res = true)
    (h3 : tookErrorPath err res = false) :
    completionHandler mN uri true err req res data =
      .ok [.cacheDel uri, .cbSuccess (formatResult data)] := by
  have hne : (mN == "find") = false := by
    rcases h1 with h | h | h <;> subst h <;> rfl
  have hs := handlerSuccess_nonfind mN uri true data hne
  unfold completionHandler
  cases res with
  | none =>
      cases err with
      | none => simpa using hs
      | some e => simp [tookErrorPath] at h3
  | some rr =>
      obtain ⟨rsc⟩ := rr
      cases rsc with
      | none => simp [resStatusOk] at h2
      | some sc =>
          cases err with
          | none => simpa using hs
          | some e =>
              have hf : statusErrorTest (toString sc) = false := by
                simpa [tookErrorPath] using h3
              simpa [hf] using hs

/-- Claim C8, witness: a successful update deletes its URI entry before the
callback. -/
theorem c8_cache_invalidation_witness :
    completionHandler "update" "http://h/api/widgets/7" true none .jnull
      (some ⟨some 200⟩) (.jobj [("id", .jnum 7)]) =
      .ok [.cacheDel "http://h/api/widgets/7",
           .cbSuccess (formatResult (.jobj [("id", .jnum 7)]))] := by
  exact c8_cache_invalidation "update" "http://h/api/widgets/7" none .jnull
    (some ⟨some 200⟩) (.jobj [("id", .jnum 7)]) (Or.inr (Or.inl rfl)) rfl rfl

/-- Claim C1, counterexample: an update whose id-stripped selector is still
non-empty sends a body that is the remaining selector ONLY — line 227 guards
the values merge with `!opt`, so the explicit `values` payload
(`{price: 5}`) is dropped entirely, contradicting the claim that every
values field survives with selector fields layered on top. -/
theorem c1_values_layering_cex :
    (request clientW none cfgW "widgets" "update"
        (some { where_ := some [("id", .jnum 1), ("color", .jstr "red")] })
        (some [("price", .jnum 5)])).bodyOut =
      some [("color", .jstr "red")]
    ∧ jget ((request clientW none cfgW "widgets" "update"
        (some { where_ := some [("id", .jnum 1), ("color", .jstr "red")] })
        (some [("price", .jnum 5)])).bodyOut.getD []) "price" = none := by
  exact ⟨rfl, rfl⟩

/-- Claim C1 (amended): for a direct (non-fan-out, non-find) write call
whose id-stripped selector is non-empty, the request body is exactly the
remaining selector; the explicit values payload is dropped (values become
the body only when no selector-derived payload exists). -/
theorem c1_write_body_selector_only (client : Client) (cacheSt : Option CacheState)
    (cfg0 : Config) (coll mN m : String) (o : Options) (w : JObj) (vs : JObj)
    (h1 : jget cfg0.methods mN = some m)
    (h2 : client.verbs.contains m = true)
    (h3 : cfg0.hasGetPathname = true)
    (h4 : mN ≠ "find")
    (h5 : m ≠ "get")
    (h6 : o.where_ = some w)
    (h7 : ((jget w "id").getD .jundefined).truthy = true ∨ (mN ≠ "update" ∧ mN ≠ "destroy"))
    (h8 : (if ((jget w "id").getD .jundefined).truthy then jdel w "id" else w) ≠ []) :
    (request client cacheSt cfg0 coll mN (some o) (some vs)).bodyOut =
      some (if ((jget w "id").getD .jundefined).truthy then jdel w "id" else w) := by
  have hg5 : (m == "get") = false := by simpa using h5
  cases ht : ((jget w "id").getD .jundefined).truthy with
  | true =>
      rw [ht] at h8
      simp only [if_pos rfl] at h8
      have hlen : ((jdel w "id").length != 0) = true := by
        simpa [bne_iff_ne, List.length_eq_zero] using h8
      have hr : routedFor cfg0 coll mN m (some o) (some vs) =
          .go (effectiveConfig cfg0 (some o) coll)
            (getPathname (effectiveConfig cfg0 (some o) coll) ++ "/" ++
              ((jget w "id").getD .jundefined).toJsString)
            (some (jdel w "id"))
            (some (optionsToObj { o with where_ := some (jdel w "id") })) := by
        simp [routedFor, route, h6, ht, afterWhere, hg5, hlen]
      rw [request_go_write client cacheSt cfg0 coll mN m (some o) (some vs) _ _ _ _
        h1 h2 h3 h4 hr]
      simp [ReqResult.bodyOut, ht]
  | false =>
      rw [ht] at h8
      simp only [Bool.false_eq_true, if_neg (by simp : ¬False)] at h8
      have hud : (mN ≠ "update" ∧ mN ≠ "destroy") := by
        rcases h7 with h | h
        · rw [ht] at h; exact absurd h (by simp)
        · exact h
      have hu : (mN == "update") = false := by simpa using hud.1
      have hd : (mN == "destroy") = false := by simpa using hud.2
      have hlen : (w.length != 0) = true := by
        simpa [bne_iff_ne, List.length_eq_zero] using h8
      have hr : routedFor cfg0 coll mN m (some o) (some vs) =
          .go (effectiveConfig cfg0 (some o) coll)
            (getPathname (effectiveConfig cfg0 (some o) coll))
            (some w)
            (some (optionsToObj { o with where_ := some w })) := by
        simp [routedFor, route, h6, ht, hu, hd, afterWhere, hg5, hlen]
      rw [request_go_write client cacheSt cfg0 coll mN m (some o) (some vs) _ _ _ _
        h1 h2 h3 h4 hr]
      simp [ReqResult.bodyOut, ht]

/-- Claim C1, witness: the amended theorem at the concrete update call. -/
theorem c1_write_body_selector_only_witness :
    (request clientW none cfgW "widgets" "update"
        (some { where_ := some [("id", .jnum 1), ("color", .jstr "red")] })
        (some [("price", .jnum 5)])).bodyOut =
      some (if ((jget [(("id" : String), JVal.jnum 1), ("color", .jstr "red")] "id").getD
          .jundefined).truthy then
        jdel [(("id" : String), JVal.jnum 1), ("color", .jstr "red")] "id"
      else [(("id" : String), JVal.jnum 1), ("color", .jstr "red")]) := by
  exact c1_write_body_selector_only clientW none cfgW "widgets" "update" "put"
    { where_ := some [("id", .jnum 1), ("color", .jstr "red")] }
    [("id", .jnum 1), ("color", .jstr "red")] [("price", .jnum 5)]
    rfl rfl rfl (by decide) (by decide) rfl (Or.inl rfl)
    (by simp [jget, jdel, JVal.truthy, List.filter])

/- Routing-phase lemmas: the configuration returned by a `.go` route. -/
theorem mergeValues_go (cfg : Config) (pn : String) (o : Option Options)
    (values : Option JObj) (cfg1 : Config) (pn1 : String) (opt fo : Option JObj)
    (hr : mergeValues cfg pn o values = .go cfg1 pn1 opt fo) :
    cfg1 = cfg ∧ pn1 = pn := by
  unfold mergeValues at hr
  cases values with
  | none =>
      cases hr
      exact ⟨rfl, rfl⟩
  | some vs =>
      cases o with
      | none => cases hr; exact ⟨rfl, rfl⟩
      | some oo => cases hr; exact ⟨rfl, rfl⟩

theorem afterWhere_go_query (cfg : Config) (pn0 m : String) (o : Options) (w : JObj)
    (values : Option JObj) (cfg1 : Config) (pn : String) (opt fo : Option JObj)
    (hr : afterWhere cfg pn0 m o w values = .go cfg1 pn opt fo) :
    (m ≠ "get" → cfg1.query = cfg.query)
    ∧ (m = "get" → cfg1.query = addPagination (jextend cfg.query w) o) := by
  unfold afterWhere at hr
  by_cases hmg : (m == "get") = true
  · rw [if_pos hmg] at hr
    obtain ⟨hc, -⟩ := mergeValues_go _ _ _ _ _ _ _ _ hr
    subst hc
    refine ⟨fun hne => absurd (by simpa using hmg) hne, fun _ => ?_⟩
    simp [addPagination]
  · rw [if_neg hmg] at hr
    have hmn : m ≠ "get" := by simpa using hmg
    split at hr
    · cases hr
      exact ⟨fun _ => rfl, fun he => absurd he hmn⟩
    · obtain ⟨hc, -⟩ := mergeValues_go _ _ _ _ _ _ _ _ hr
      subst hc
      exact ⟨fun _ => rfl, fun he => absurd he hmn⟩

theorem route_go_query (cfg : Config) (pn0 mN m : String) (o : Options)
    (values : Option JObj) (cfg1 : Config) (pn : String) (opt fo : Option JObj)
    (hr : route cfg pn0 mN m (some o) values = .go cfg1 pn opt fo) :
    (m ≠ "get" → cfg1.query = cfg.query)
    ∧ (∀ w, o.where_ = some w → m = "get" →
        ∃ w2, cfg1.query =
          addPagination (jextend cfg.query w2) { o with where_ := some w2 }) := by
  simp only [route] at hr
  cases hw : o.where_ with
  | none =>
      rw [hw] at hr
      obtain ⟨hc, -⟩ := mergeValues_go _ _ _ _ _ _ _ _ hr
      subst hc
      exact ⟨fun _ => rfl, fun w hw2 => absurd hw2 (by simp)⟩
  | some w =>
      rw [hw] at hr
      dsimp only at hr
      cases ht : ((jget w "id").getD .jundefined).truthy with
      | true =>
          rw [ht] at hr
          simp only [if_pos rfl] at hr
          have := afterWhere_go_query _ _ _ _ _ _ _ _ _ _ hr
          exact ⟨this.1, fun w0 hw0 hm => ⟨jdel w "id", this.2 hm⟩⟩
      | false =>
          rw [ht] at hr
          simp only [Bool.false_eq_true, if_false] at hr
          by_cases hfan : (mN == "destroy" || mN == "update") = true
          · rw [if_pos hfan] at hr
            cases hr
          · rw [if_neg hfan] at hr
            have := afterWhere_go_query _ _ _ _ _ _ _ _ _ _ hr
            exact ⟨this.1, fun w0 hw0 hm => ⟨w, this.2 hm⟩⟩

/-- Claim C3, counterexample: a GET `find` whose options carry `limit` but
no `where` produces a final query WITHOUT `limit` — the pagination copying
of lines 213-217 sits inside `if (options && options.where)`, so the claim
that a defined pagination key always appears for GET verbs fails. -/
theorem c3_pagination_without_where_cex :
    (request clientW none cfgW "widgets" "find"
        (some { limit := some (.jnum 5) }) none).queryOut = some []
    ∧ ({ limit := some (.jnum 5) } : Options).limit = some (.jnum 5) := by
  exact ⟨rfl, rfl⟩

/-- Claim C3 (amended): for a GET verb WITH a present `where` selector,
each of `skip`/`limit`/`offset` defined in the options appears in the final
query parameters; for a non-GET verb the router never touches the query —
the final query equals the effective configured query. -/
theorem c3_pagination_routing (client : Client) (cacheSt : Option CacheState)
    (cfg0 : Config) (coll mN m : String) (o : Options) (values : Option JObj)
    (h1 : jget cfg0.methods mN = some m)
    (h2 : client.verbs.contains m = true)
    (h3 : cfg0.hasGetPathname = true) :
    ((m = "get" ∧ o.where_.isSome = true) →
      ∀ c, (request client cacheSt cfg0 coll mN (some o) values).cfgOut = some c →
        (∀ v, o.skip = some v → jget c.query "skip" = some v)
        ∧ (∀ v, o.limit = some v → jget c.query "limit" = some v)
        ∧ (∀ v, o.offset = some v → jget c.query "offset" = some v))
    ∧ (m ≠ "get" →
      ∀ c, (request client cacheSt cfg0 coll mN (some o) values).cfgOut = some c →
        c.query = (effectiveConfig cfg0 (some o) coll).query) := by
  cases hr : routedFor cfg0 coll mN m (some o) values with
  | fan o2 =>
      have h3e := (effectiveConfig_hasGetPathname cfg0 (some o) coll).trans h3
      have h2m : m ∈ client.verbs := by simpa using h2
      have hnone : (request client cacheSt cfg0 coll mN (some o) values).cfgOut = none := by
        simp [request, h1, h2m, h3e, hr]
      refine ⟨fun _ c hc => ?_, fun _ c hc => ?_⟩ <;>
        (rw [hnone] at hc; cases hc)
  | go cfg1 pn opt fo =>
      obtain ⟨hcfg, -⟩ := request_components_of_go client cacheSt cfg0 coll mN m
        (some o) values cfg1 pn opt fo h1 h2 h3 hr
      have hq := route_go_query (effectiveConfig cfg0 (some o) coll)
        (getPathname (effectiveConfig cfg0 (some o) coll)) mN m o values cfg1 pn opt fo hr
      constructor
      · rintro ⟨hm, hwise⟩ c hc
        rw [hcfg] at hc
        cases hc
        obtain ⟨w, hw⟩ := Option.isSome_iff_exists.mp hwise
        obtain ⟨w2, hq2⟩ := hq.2 w hw hm
        refine ⟨fun v hv => ?_, fun v hv => ?_, fun v hv => ?_⟩ <;>
          simp only [hq2]
        · exact addPagination_skip _ _ _ hv
        · exact addPagination_limit _ _ _ hv
        · exact addPagination_offset _ _ _ hv
      · intro hne c hc
        rw [hcfg] at hc
        cases hc
        exact hq.1 hne

/-- Claim C3, witness: the amended theorem at a concrete GET find with a
selector and a `limit`. -/
theorem c3_pagination_routing_witness :
    ((("get" : String) = "get" ∧
        (({ where_ := some [("color", .jstr "red")], limit := some (.jnum 5) } : Options).where_.isSome = true)) →
      ∀ c, (request clientW none cfgW "widgets" "find"
          (some { where_ := some [("color", .jstr "red")], limit := some (.jnum 5) }) none).cfgOut = some c →
        (∀ v, ({ where_ := some [("color", .jstr "red")], limit := some (.jnum 5) } : Options).skip = some v →
            jget c.query "skip" = some v)
        ∧ (∀ v, ({ where_ := some [("color", .jstr "red")], limit := some (.jnum 5) } : Options).limit = some v →
            jget c.query "limit" = some v)
        ∧ (∀ v, ({ where_ := some [("color", .jstr "red")], limit := some (.jnum 5) } : Options).offset = some v →
            jget c.query "offset" = some v))
    ∧ (("get" : String) ≠ "get" →
      ∀ c, (request clientW none cfgW "widgets" "find"
          (some { where_ := some [("color", .jstr "red")], limit := some (.jnum 5) }) none).cfgOut = some c →
        c.query = (effectiveConfig cfgW
          (some { where_ := some [("color", .jstr "red")], limit := some (.jnum 5) }) "widgets").query) := by
  exact c3_pagination_routing clientW none cfgW "widgets" "find" "get"
    { where_ := some [("color", .jstr "red")], limit := some (.jnum 5) } none rfl rfl rfl

/-- The routing outcome for a truthy selector id (lines 186-189 then
210-233): the id segment is appended, the id is gone from the mutated query,
payload and options, and the values-merge shape of lines 227-233 holds. -/
theorem route_truthy_id (cfg : Config) (pn0 mN m : String) (o : Options) (w : JObj)
    (idv : JVal) (values : Option JObj)
    (hw : o.where_ = some w) (hid : jget w "id" = some idv) (ht : idv.truthy = true) :
    ∃ cfg1 opt fo,
      route cfg pn0 mN m (some o) values =
        .go cfg1 (pn0 ++ "/" ++ idv.toJsString) opt fo
      ∧ (jget cfg.query "id" = none → jget cfg1.query "id" = none)
      ∧ (∀ b, opt = some b → (∀ vs, values = some vs → jget vs "id" = none) →
          jget b "id" = none)
      ∧ (∀ f2, fo = some f2 → (∀ vs, values = some vs → jget vs "where" = none) →
          (jget f2 "where" = none ∨
            ∃ w2, jget f2 "where" = some (.jobj w2) ∧ jget w2 "id" = none))
      ∧ (m ≠ "get" → jdel w "id" = [] → ∀ vs, values = some vs →
          (opt = fo ∧ fo = some (jextend (optionsToObj { o with where_ := none }) vs))) := by
  have hwid : jget (jdel w "id") "id" = none := jget_jdel_self w "id"
  have hpag : ∀ q o2, jget (addPagination q o2) "id" = jget q "id" := by
    intro q o2
    exact addPagination_other q o2 "id" (by decide) (by decide) (by decide)
  have hroute : route cfg pn0 mN m (some o) values =
      afterWhere cfg (pn0 ++ "/" ++ idv.toJsString) m
        { o with where_ := some (jdel w "id") } (jdel w "id") values := by
    simp [route, hw, hid, ht]
  rw [hroute]
  unfold afterWhere
  by_cases hmg : (m == "get") = true
  · rw [if_pos hmg]
    have hmeq : m = "get" := by simpa using hmg
    unfold mergeValues
    cases values with
    | none =>
        refine ⟨_, none, some (optionsToObj { o with where_ := some (jdel w "id") }),
          rfl, ?_, ?_, ?_, ?_⟩
        · intro hq
          simp only [hpag]
          rw [jget_jextend_none _ _ _ hwid]
          exact hq
        · intro b hb
          cases hb
        · intro f2 hf2 _
          cases hf2
          refine Or.inr ⟨jdel w "id", ?_, hwid⟩
          rw [jget_optionsToObj_where]
          rfl
        · intro hne
          exact absurd hmeq hne
    | some vs =>
        refine ⟨_, _, _, rfl, ?_, ?_, ?_, ?_⟩
        · intro hq
          simp only [hpag]
          rw [jget_jextend_none _ _ _ hwid]
          exact hq
        · intro b hb hvals
          cases hb
          rw [jget_jextend_none _ _ _ (hvals vs rfl)]
          exact jget_optionsToObj_id _
        · intro f2 hf2 hvw
          cases hf2
          rw [jget_jextend_none _ _ _ (hvw vs rfl)]
          refine Or.inr ⟨jdel w "id", ?_, hwid⟩
          rw [jget_optionsToObj_where]
          rfl
        · intro hne
          exact absurd hmeq hne
  · rw [if_neg hmg]
    have hmne : m ≠ "get" := by simpa using hmg
    by_cases hlen : ((jdel w "id").length != 0) = true
    · rw [if_pos hlen]
      refine ⟨_, _, _, rfl, fun hq => hq, ?_, ?_, ?_⟩
      · intro b hb _
        cases hb
        exact hwid
      · intro f2 hf2 _
        cases hf2
        refine Or.inr ⟨jdel w "id", ?_, hwid⟩
        rw [jget_optionsToObj_where]
        rfl
      · intro _ hdel
        rw [hdel] at hlen
        simp at hlen
    · rw [if_neg hlen]
      have hdel : jdel w "id" = [] := by
        have := hlen
        simp only [bne_iff_ne, ne_eq, Decidable.not_not] at this
        exact List.length_eq_zero.mp this
      unfold mergeValues
      cases values with
      | none =>
          refine ⟨_, none, some (optionsToObj { o with where_ := none }),
            rfl, fun hq => hq, ?_, ?_, ?_⟩
          · intro b hb
            cases hb
          · intro f2 hf2 _
            cases hf2
            refine Or.inl ?_
            rw [jget_optionsToObj_where]
            rfl
          · intro _ _ vs hvs
            cases hvs
      | some vs =>
          refine ⟨_, _, _, rfl, fun hq => hq, ?_, ?_, ?_⟩
          · intro b hb hvals
            cases hb
            rw [jget_jextend_none _ _ _ (hvals vs rfl)]
            exact jget_optionsToObj_id _
          · intro f2 hf2 hvw
            cases hf2
            rw [jget_jextend_none _ _ _ (hvw vs rfl)]
            refine Or.inl ?_
            rw [jget_optionsToObj_where]
            rfl
          · intro _ _ vs2 hvs2
            cases hvs2
            exact ⟨rfl, rfl⟩

/-- The body a `.go`-routed request sends is the routed payload, unless the
cache answered (in which case no body is sent at all). -/
theorem request_bodyOut_of_go (client : Client) (cacheSt : Option CacheState)
    (cfg0 : Config) (coll mN m : String) (options : Option Options)
    (values : Option JObj) (cfg1 : Config) (pn : String) (opt fo : Option JObj)
    (h1 : jget cfg0.methods mN = some m)
    (h2 : client.verbs.contains m = true)
    (h3 : cfg0.hasGetPathname = true)
    (hr : routedFor cfg0 coll mN m options values = .go cfg1 pn opt fo) :
    (request client cacheSt cfg0 coll mN options values).bodyOut = none
    ∨ (request client cacheSt cfg0 coll mN options values).bodyOut = opt := by
  have h3e := (effectiveConfig_hasGetPathname cfg0 options coll).trans h3
  simp only [request, h1, h2, if_true, h3e, hr]
  (repeat' split) <;> first
    | exact Or.inl rfl
    | exact Or.inr rfl

/-- Claim C9, counterexample: a falsy id (`id: 0`) is NOT stripped — line
186 tests `if (options.where.id)`, truthiness, not presence — so the path
gets no `/0` segment and the id leaks into the GET query parameters,
contradicting the claim for selectors that merely contain an id. -/
theorem c9_falsy_id_cex :
    (request clientW none cfgW "widgets" "find"
        (some { where_ := some [("id", .jnum 0)] }) none).queryOut =
      some [("id", .jnum 0)]
    ∧ (request clientW none cfgW "widgets" "find"
        (some { where_ := some [("id", .jnum 0)] }) none).pathnameOut =
      some "/api/widgets" := by
  exact ⟨rfl, rfl⟩

/-- Claim C9 (amended): for a selector containing a TRUTHY id, the final
path has the id appended as a segment, and (provided the configured query
and the values payload do not themselves carry an `id` key) the id appears
neither in the final query parameters nor in the request body: it is removed
from the selector before query/body placement. -/
theorem c9_id_path_segment (client : Client) (cacheSt : Option CacheState)
    (cfg0 : Config) (coll mN m : String) (o : Options) (w : JObj) (idv : JVal)
    (values : Option JObj)
    (h1 : jget cfg0.methods mN = some m)
    (h2 : client.verbs.contains m = true)
    (h3 : cfg0.hasGetPathname = true)
    (h6 : o.where_ = some w)
    (hid : jget w "id" = some idv)
    (ht : idv.truthy = true)
    (hq : jget (effectiveConfig cfg0 (some o) coll).query "id" = none)
    (hv : ∀ vs, values = some vs → jget vs "id" = none) :
    (request client cacheSt cfg0 coll mN (some o) values).pathnameOut =
      some (getPathname (effectiveConfig cfg0 (some o) coll) ++ "/" ++ idv.toJsString)
    ∧ (∀ c, (request client cacheSt cfg0 coll mN (some o) values).cfgOut = some c →
        jget c.query "id" = none)
    ∧ (∀ b, (request client cacheSt cfg0 coll mN (some o) values).bodyOut = some b →
        jget b "id" = none) := by
  obtain ⟨cfg1, opt, fo, hr, p1, p2, p3, p4⟩ :=
    route_truthy_id (effectiveConfig cfg0 (some o) coll)
      (getPathname (effectiveConfig cfg0 (some o) coll)) mN m o w idv values h6 hid ht
  have hr2 : routedFor cfg0 coll mN m (some o) values =
      .go cfg1 (getPathname (effectiveConfig cfg0 (some o) coll) ++ "/" ++ idv.toJsString)
        opt fo := hr
  obtain ⟨hcfg, -⟩ := request_components_of_go client cacheSt cfg0 coll mN m (some o)
    values cfg1 _ opt fo h1 h2 h3 hr2
  refine ⟨?_, ?_, ?_⟩
  · simp [ReqResult.pathnameOut, hcfg]
  · intro c hc
    rw [hcfg] at hc
    cases hc
    exact p1 hq
  · intro b hb
    rcases request_bodyOut_of_go client cacheSt cfg0 coll mN m (some o) values cfg1 _
      opt fo h1 h2 h3 hr2 with hn | ho
    · rw [hn] at hb
      cases hb
    · rw [ho] at hb
      exact p2 b hb hv

/-- Claim C9, witness: the amended theorem at a concrete update with
selector `{id: 7, color: "red"}`. -/
theorem c9_id_path_segment_witness :
    (request clientW none cfgW "widgets" "update"
        (some { where_ := some [("id", .jnum 7), ("color", .jstr "red")] })
        (some [("price", .jnum 5)])).pathnameOut =
      some (getPathname (effectiveConfig cfgW
        (some { where_ := some [("id", .jnum 7), ("color", .jstr "red")] }) "widgets")
        ++ "/" ++ (JVal.jnum 7).toJsString)
    ∧ (∀ c, (request clientW none cfgW "widgets" "update"
        (some { where_ := some [("id", .jnum 7), ("color", .jstr "red")] })
        (some [("price", .jnum 5)])).cfgOut = some c → jget c.query "id" = none)
    ∧ (∀ b, (request clientW none cfgW "widgets" "update"
        (some { where_ := some [("id", .jnum 7), ("color", .jstr "red")] })
        (some [("price", .jnum 5)])).bodyOut = some b → jget b "id" = none) := by
  exact c9_id_path_segment clientW none cfgW "widgets" "update" "put"
    { where_ := some [("id", .jnum 7), ("color", .jstr "red")] }
    [("id", .jnum 7), ("color", .jstr "red")] (.jnum 7) (some [("price", .jnum 5)])
    rfl rfl rfl rfl rfl rfl rfl
    (fun vs hvs => by cases hvs; rfl)

/-- Claim C10, counterexample: with the falsy id `0`, `delete
options.where.id` is never executed, so after the call the caller's options
object still contains the id inside `where` — the claim that an id present
in `options.where` is deleted fails for falsy ids. -/
theorem c10_falsy_id_retained_cex :
    (request clientW none cfgW "gadgets" "find"
        (some { where_ := some [("id", .jnum 0)] }) none).finalOptions =
      some [("where", .jobj [("id", .jnum 0)])] := by
  rfl

/-- Claim C10 (amended): `request` mutates the caller's options object:
for a selector with a TRUTHY id, after the call the options' `where` (when
still present) no longer contains the id; and on a direct write whose
stripped selector became empty, the values keys are merged into the caller's
options object itself, which becomes the request body (`bodyOut` and
`finalOptions` are the same object). -/
theorem c10_options_mutation (client : Client) (cacheSt : Option CacheState)
    (cfg0 : Config) (coll mN m : String) (o : Options) (w : JObj) (idv : JVal)
    (values : Option JObj)
    (h1 : jget cfg0.methods mN = some m)
    (h2 : client.verbs.contains m = true)
    (h3 : cfg0.hasGetPathname = true)
    (h6 : o.where_ = some w)
    (hid : jget w "id" = some idv)
    (ht : idv.truthy = true)
    (hvw : ∀ vs, values = some vs → jget vs "where" = none) :
    (∀ f2, (request client cacheSt cfg0 coll mN (some o) values).finalOptions = some f2 →
        (jget f2 "where" = none ∨
          ∃ w2, jget f2 "where" = some (.jobj w2) ∧ jget w2 "id" = none))
    ∧ (m ≠ "get" → mN ≠ "find" → jdel w "id" = [] → ∀ vs, values = some vs →
        (request client cacheSt cfg0 coll mN (some o) values).bodyOut =
          (request client cacheSt cfg0 coll mN (some o) values).finalOptions
        ∧ (request client cacheSt cfg0 coll mN (some o) values).finalOptions =
          some (jextend (optionsToObj { o with where_ := none }) vs)) := by
  obtain ⟨cfg1, opt, fo, hr, p1, p2, p3, p4⟩ :=
    route_truthy_id (effectiveConfig cfg0 (some o) coll)
      (getPathname (effectiveConfig cfg0 (some o) coll)) mN m o w idv values h6 hid ht
  have hr2 : routedFor cfg0 coll mN m (some o) values =
      .go cfg1 (getPathname (effectiveConfig cfg0 (some o) coll) ++ "/" ++ idv.toJsString)
        opt fo := hr
  obtain ⟨hcfg, hfo⟩ := request_components_of_go client cacheSt cfg0 coll mN m (some o)
    values cfg1 _ opt fo h1 h2 h3 hr2
  constructor
  · intro f2 hf2
    rw [hfo] at hf2
    exact p3 f2 hf2 hvw
  · intro hmg hmf hdel vs hvs
    obtain ⟨hof, hfov⟩ := p4 hmg hdel vs hvs
    have hreq := request_go_write client cacheSt cfg0 coll mN m (some o) values cfg1 _
      opt fo h1 h2 h3 hmf hr2
    rw [hreq]
    subst hof
    exact ⟨rfl, hfov⟩

/-- Claim C10, witness: the amended theorem at a concrete update with
selector `{id: 7}` and values `{price: 5}`. -/
theorem c10_options_mutation_witness :
    (∀ f2, (request clientW none cfgW "widgets" "update"
        (some { where_ := some [("id", .jnum 7)] })
        (some [("price", .jnum 5)])).finalOptions = some f2 →
        (jget f2 "where" = none ∨
          ∃ w2, jget f2 "where" = some (.jobj w2) ∧ jget w2 "id" = none))
    ∧ (("put" : String) ≠ "get" → ("update" : String) ≠ "find" →
        jdel [(("id" : String), JVal.jnum 7)] "id" = [] →
        ∀ vs, (some [(("price" : String), JVal.jnum 5)] : Option JObj) = some vs →
        (request clientW none cfgW "widgets" "update"
          (some { where_ := some [("id", .jnum 7)] })
          (some [("price", .jnum 5)])).bodyOut =
          (request clientW none cfgW "widgets" "update"
            (some { where_ := some [("id", .jnum 7)] })
            (some [("price", .jnum 5)])).finalOptions
        ∧ (request clientW none cfgW "widgets" "update"
            (some { where_ := some [("id", .jnum 7)] })
            (some [("price", .jnum 5)])).finalOptions =
          some (jextend (optionsToObj
            { ({ where_ := some [("id", .jnum 7)] } : Options) with where_ := none }) vs)) := by
  exact c10_options_mutation clientW none cfgW "widgets" "update" "put"
    { where_ := some [("id", .jnum 7)] } [("id", .jnum 7)] (.jnum 7)
    (some [("price", .jnum 5)]) rfl rfl rfl rfl rfl rfl
    (fun vs hvs => by cases hvs; rfl)

/-- Claim C4, counterexample: when the enumerating find matches ZERO
records, the fan-out issues no sub-requests and the original callback is
attached to nothing — it never fires, contradicting the claim that it fires
exactly once. -/
theorem c4_zero_match_cex :
    (request clientW none cfgW "widgets" "update"
        (some { where_ := some [("color", .jstr "red")] })
        (some [("price", .jnum 5)])).action =
      .fanOut { where_ := some [("color", .jstr "red")] }
    ∧ fanContinuation none [] = .subRequests []
    ∧ fanAttachCount (fanContinuation none []) = 0 := by
  exact ⟨rfl, rfl, rfl⟩

/-- Claim C4 (amended): an update/destroy whose selector has no truthy id
(and whose verb is a valid non-GET client operation) issues no direct
request; it performs one enumerating find with the same selector; a failing
enumeration propagates its error to the original callback with no
sub-requests; a successful one re-invokes the pipeline once per matched
record with a selector containing only that record's id, the original
callback attached only to the final sub-request (earlier ones get `_.noop`);
it is attached exactly once when at least one record matches, and never when
zero records match. -/
theorem c4_bulk_fanout (client : Client) (cacheSt : Option CacheState)
    (cfg0 : Config) (coll mN m : String) (o : Options) (w : JObj)
    (values : Option JObj)
    (h1 : jget cfg0.methods mN = some m)
    (h2 : client.verbs.contains m = true)
    (h3 : cfg0.hasGetPathname = true)
    (h4 : mN = "update" ∨ mN = "destroy")
    (hg : m ≠ "get")
    (h6 : o.where_ = some w)
    (h7 : ((jget w "id").getD .jundefined).truthy = false) :
    m ≠ "get"
    ∧ (request client cacheSt cfg0 coll mN (some o) values).action = .fanOut o
    ∧ (request client cacheSt cfg0 coll mN (some o) values).action.isNetworkCall = false
    ∧ (∀ e results, fanContinuation (some e) results = .propagateError e)
    ∧ (∀ results : List JVal, fanContinuation none results =
        .subRequests (results.enum.map (fun p =>
          (p.1 + 1 == results.length,
           { where_ := some [("id", jdotD p.2 "id")] }))))
    ∧ (∀ results : List JVal, results ≠ [] →
        fanAttachCount (fanContinuation none results) = 1) := by
  have h3e := (effectiveConfig_hasGetPathname cfg0 (some o) coll).trans h3
  have h2m : m ∈ client.verbs := by simpa using h2
  have hfan : (mN == "destroy" || mN == "update") = true := by
    rcases h4 with h | h <;> subst h <;> rfl
  have hr : routedFor cfg0 coll mN m (some o) values = .fan o := by
    simp [routedFor, route, h6, h7, hfan]
  refine ⟨hg, ?_, ?_, fun e results => rfl, fun results => rfl, fanAttach_subs⟩
  · simp [request, h1, h2m, h3e, hr]
  · simp [request, h1, h2m, h3e, hr, Action.isNetworkCall]

/-- Claim C4, witness: the amended theorem at a concrete bulk update. -/
theorem c4_bulk_fanout_witness :
    ("put" : String) ≠ "get"
    ∧ (request clientW none cfgW "widgets" "update"
        (some { where_ := some [("kind", .jstr "blue")] })
        (some [("price", .jnum 9)])).action =
      .fanOut { where_ := some [("kind", .jstr "blue")] }
    ∧ (request clientW none cfgW "widgets" "update"
        (some { where_ := some [("kind", .jstr "blue")] })
        (some [("price", .jnum 9)])).action.isNetworkCall = false
    ∧ (∀ e results, fanContinuation (some e) results = .propagateError e)
    ∧ (∀ results : List JVal, fanContinuation none results =
        .subRequests (results.enum.map (fun p =>
          (p.1 + 1 == results.length,
           { where_ := some [("id", jdotD p.2 "id")] }))))
    ∧ (∀ results : List JVal, results ≠ [] →
        fanAttachCount (fanContinuation none results) = 1) := by
  exact c4_bulk_fanout clientW none cfgW "widgets" "update" "put"
    { where_ := some [("kind", .jstr "blue")] } [("kind", .jstr "blue")]
    (some [("price", .jnum 9)]) rfl rfl rfl (Or.inl rfl) (by decide) rfl rfl

end SailsRest
